import Mathlib

/-!
Verification of the commission-advance reconciliation engine
(`app/business_logic.py`, `app/validators.py`).

The engine is embedded shallowly:
* a pandas DataFrame of carrier payments is a `List PaymentRecord`,
  a DataFrame of CRM roster rows is a `List CRMPolicy`;
* calendar dates are `Int` day ordinals (Python `date.toordinal`);
* decimal amounts are `ℚ`;
* Python string comparison (used by `sort_values` and `sort`) is
  code-point lexicographic comparison, embedded as `strLe` / `strLt`;
* `sort_values` / `list.sort` are embedded as stable insertion sort
  (`List.insertionSort`), matching pandas sort semantics on the small
  inputs considered here;
* a Python dict keyed by `(policy_id, agent_id)` is a function
  `String × String → Option _`; a `defaultdict` accumulator is an
  insertion-ordered association list.
-/

namespace Commish

/-- Code-point lexicographic `≤` on char lists: the order Python uses
to compare strings (`str.__lt__`), which pandas `sort_values` and
`list.sort(key=...)` rely on. -/
def charsLe : List Char → List Char → Bool
  | [], _ => true
  | _ :: _, [] => false
  | a :: as, b :: bs =>
    if a < b then true
    else if b < a then false
    else charsLe as bs

/-- Strict code-point lexicographic order on char lists. -/
def charsLt : List Char → List Char → Bool
  | [], [] => false
  | [], _ :: _ => true
  | _ :: _, [] => false
  | a :: as, b :: bs =>
    if a < b then true
    else if b < a then false
    else charsLt as bs

/-- Python string `<=`. -/
def strLe (a b : String) : Bool := charsLe a.data b.data

/-- Python string `<`. -/
def strLt (a b : String) : Bool := charsLt a.data b.data

/-- `CarrierRemittance` row (`app/models.py`): one payment-ledger record. -/
structure PaymentRecord where
  policy_id : String
  agent_id : String
  carrier : String
  paid_date : Int
  amount : ℚ
  status : String
deriving DecidableEq, Repr

/-- `CRMPolicy` row (`app/models.py`): one roster record. -/
structure CRMPolicy where
  policy_id : String
  agent_id : String
  submit_date : Int
  ltv_expected : ℚ
deriving DecidableEq, Repr

/-- `PolicyAnalysis` (`app/models.py`). -/
structure PolicyAnalysis where
  policy_id : String
  agent_id : String
  earned_to_date : ℚ
  remaining_expected : ℚ
  is_eligible : Bool
  submit_date : Int
  latest_status : String
deriving DecidableEq, Repr

/-- `AgentQuote` (`app/models.py`). -/
structure AgentQuote where
  agent_id : String
  earned_to_date : ℚ
  total_eligible_remaining : ℚ
  safe_to_advance : ℚ
  eligible_policies_count : Nat
deriving DecidableEq, Repr

/-- `config.ADVANCE_PERCENTAGE` default (`app/config.py`). -/
def config_ADVANCE_PERCENTAGE : ℚ := 0.80

/-- `config.MAX_ADVANCE_AMOUNT` default (`app/config.py`). -/
def config_MAX_ADVANCE_AMOUNT : ℚ := 2000

/-- `config.ELIGIBILITY_DAYS` default (`app/config.py`). -/
def config_ELIGIBILITY_DAYS : Int := 7

/-- `get_today` (`app/business_logic.py`): the frozen reference date
`date(2025, 7, 6)`, as its proleptic-Gregorian ordinal. -/
def get_today : Int := 739438

/-- The pandas `sort_values(["policy_id", "paid_date", "amount", "status"])`
comparison used by `deduplicate_payments`: lexicographic on the four columns. -/
def paymentSortLe (r s : PaymentRecord) : Bool :=
  if r.policy_id = s.policy_id then
    if r.paid_date = s.paid_date then
      if r.amount = s.amount then strLe r.status s.status
      else decide (r.amount < s.amount)
    else decide (r.paid_date < s.paid_date)
  else strLt r.policy_id s.policy_id

/-- Propositional form of `paymentSortLe`, for `List.insertionSort`. -/
def paymentSortLeR (r s : PaymentRecord) : Prop := paymentSortLe r s = true

instance : DecidableRel paymentSortLeR := fun r s =>
  inferInstanceAs (Decidable (paymentSortLe r s = true))

/-- The `drop_duplicates` key: `(policy_id, paid_date, amount)` — note it
does not include `agent_id`. -/
def dedupKey (r : PaymentRecord) : String × Int × ℚ :=
  (r.policy_id, r.paid_date, r.amount)

/-- pandas `drop_duplicates(subset=..., keep="last")`: keep a row iff no
later row of the list shares its `dedupKey`. -/
def dropDuplicatesKeepLast (l : List PaymentRecord) : List PaymentRecord :=
  l.foldr
    (fun r acc =>
      if acc.any (fun s => decide (dedupKey s = dedupKey r)) then acc
      else r :: acc)
    []

/-- `deduplicate_payments` (`app/business_logic.py`): sort by
`(policy_id, paid_date, amount, status)`, then drop duplicates of
`(policy_id, paid_date, amount)` keeping the last (= greatest status). -/
def deduplicate_payments (l : List PaymentRecord) : List PaymentRecord :=
  dropDuplicatesKeepLast (List.insertionSort paymentSortLeR l)

/-- Row filter for a `(policy_id, agent_id)` group key. -/
def matchesKey (p a : String) (r : PaymentRecord) : Bool :=
  decide (r.policy_id = p) && decide (r.agent_id = a)

/-- `calculate_earned_per_policy` (`app/business_logic.py`): deduplicate,
group by `(policy_id, agent_id)`, sum `amount`.  The resulting dict is
embedded as a partial map: `none` models an absent key. -/
def calculate_earned_per_policy (l : List PaymentRecord)
    (k : String × String) : Option ℚ :=
  let rows := (deduplicate_payments l).filter (matchesKey k.1 k.2)
  if rows.isEmpty then none else some ((rows.map (·.amount)).sum)

/-- The `sort_values("paid_date")` comparison used by
`get_latest_policy_status`. -/
def dateLE (r s : PaymentRecord) : Prop := r.paid_date ≤ s.paid_date

instance : DecidableRel dateLE := fun r s =>
  inferInstanceAs (Decidable (r.paid_date ≤ s.paid_date))

instance : IsTotal PaymentRecord dateLE :=
  ⟨fun r s => Int.le_total r.paid_date s.paid_date⟩

instance : IsTrans PaymentRecord dateLE :=
  ⟨fun _ _ _ h h2 => Int.le_trans h h2⟩

/-- `get_latest_policy_status` (`app/business_logic.py`): on the RAW
(non-deduplicated) ledger, stable-sort by `paid_date`, group by
`(policy_id, agent_id)`, take `.last()` — the last row of the group in
sorted order. -/
def get_latest_policy_status (l : List PaymentRecord)
    (k : String × String) : Option String :=
  (((List.insertionSort dateLE l).filter (matchesKey k.1 k.2)).getLast?).map
    (·.status)

/-- `determine_eligibility` (`app/business_logic.py`). -/
def determine_eligibility (submit_date : Int) (latest_status : String)
    (today : Int) : Bool :=
  decide (latest_status = "active") &&
    decide (submit_date ≤ today - config_ELIGIBILITY_DAYS)

/-- Body of the `analyze_policies` roster loop (`app/business_logic.py`):
look up earned (default `0.0`) and status (default `"active"`), floor
`remaining_expected` at `0`, evaluate eligibility. -/
def analyzeRow (carrier : List PaymentRecord) (today : Int)
    (row : CRMPolicy) : PolicyAnalysis :=
  let k := (row.policy_id, row.agent_id)
  let earned := (calculate_earned_per_policy carrier k).getD 0
  let latest := (get_latest_policy_status carrier k).getD "active"
  { policy_id := row.policy_id
    agent_id := row.agent_id
    earned_to_date := earned
    remaining_expected := max (row.ltv_expected - earned) 0
    is_eligible := determine_eligibility row.submit_date latest today
    submit_date := row.submit_date
    latest_status := latest }

/-- `analyze_policies` (`app/business_logic.py`): one `PolicyAnalysis`
per CRM roster row, in roster order. -/
def analyze_policies (carrier : List PaymentRecord)
    (crm : List CRMPolicy) : List PolicyAnalysis :=
  crm.map (analyzeRow carrier get_today)

/-- The per-agent running totals of `calculate_agent_quotes`. -/
structure AgentData where
  total_earned : ℚ
  total_eligible_remaining : ℚ
  eligible_policies_count : Nat
deriving DecidableEq, Repr

/-- The `defaultdict` initial value in `calculate_agent_quotes`. -/
def initAgentData : AgentData :=
  { total_earned := 0, total_eligible_remaining := 0
    eligible_policies_count := 0 }

/-- One loop iteration of `calculate_agent_quotes`: add the analysis's
`earned_to_date` unconditionally; add `remaining_expected` and bump the
count only when eligible. -/
def addAnalysis (d : AgentData) (pa : PolicyAnalysis) : AgentData :=
  { total_earned := d.total_earned + pa.earned_to_date
    total_eligible_remaining :=
      if pa.is_eligible then d.total_eligible_remaining + pa.remaining_expected
      else d.total_eligible_remaining
    eligible_policies_count :=
      if pa.is_eligible then d.eligible_policies_count + 1
      else d.eligible_policies_count }

/-- `agent_data[agent_id] … +=` on the `defaultdict`, embedded as an
insertion-ordered association list: update in place when the key exists,
append a fresh (default-initialised) entry otherwise. -/
def updateAcc : List (String × AgentData) → PolicyAnalysis →
    List (String × AgentData)
  | [], pa => [(pa.agent_id, addAnalysis initAgentData pa)]
  | (a, d) :: rest, pa =>
    if a = pa.agent_id then (a, addAnalysis d pa) :: rest
    else (a, d) :: updateAcc rest pa

/-- The accumulation loop of `calculate_agent_quotes`. -/
def accumulate (l : List PolicyAnalysis) : List (String × AgentData) :=
  l.foldl updateAcc []

/-- Quote construction for one agent in `calculate_agent_quotes`:
`calculated = total_eligible_remaining * rate`,
`safe_to_advance = min(calculated, cap)`. -/
def mkQuote (rate cap : ℚ) (e : String × AgentData) : AgentQuote :=
  { agent_id := e.1
    earned_to_date := e.2.total_earned
    total_eligible_remaining := e.2.total_eligible_remaining
    safe_to_advance := min (e.2.total_eligible_remaining * rate) cap
    eligible_policies_count := e.2.eligible_policies_count }

/-- The `agent_quotes.sort(key=lambda x: x.agent_id)` comparison. -/
def quoteLE (q1 q2 : AgentQuote) : Prop := strLe q1.agent_id q2.agent_id = true

instance : DecidableRel quoteLE := fun q1 q2 =>
  inferInstanceAs (Decidable (strLe q1.agent_id q2.agent_id = true))

/-- `calculate_agent_quotes` (`app/business_logic.py`), with the rate and
cap read from config passed explicitly. -/
def calculate_agent_quotes (l : List PolicyAnalysis) (rate cap : ℚ) :
    List AgentQuote :=
  List.insertionSort quoteLE ((accumulate l).map (mkQuote rate cap))

/-- `compute_quotes` (`app/business_logic.py`): the whole pipeline at the
configured defaults. -/
def compute_quotes (carrier : List PaymentRecord) (crm : List CRMPolicy) :
    List AgentQuote :=
  calculate_agent_quotes (analyze_policies carrier crm)
    config_ADVANCE_PERCENTAGE config_MAX_ADVANCE_AMOUNT

/-! ### Spec-side reference definitions -/

/-- The spec's reading of the per-agent grouping: all of agent `a`'s
policy analyses, in list order. -/
def agentPolicies (l : List PolicyAnalysis) (a : String) : List PolicyAnalysis :=
  l.filter (fun pa => decide (pa.agent_id = a))

/-- The spec's reading of the per-agent totals: `earned_to_date` summed
over ALL of the agent's policies; remaining value and count over the
eligible ones only. -/
def accSpec (l : List PolicyAnalysis) (a : String) : AgentData :=
  { total_earned := ((agentPolicies l a).map (·.earned_to_date)).sum
    total_eligible_remaining :=
      (((agentPolicies l a).filter (·.is_eligible)).map
        (·.remaining_expected)).sum
    eligible_policies_count :=
      ((agentPolicies l a).filter (·.is_eligible)).length }

/-- Modelled from the claim's words (spec §4.2): latest status as the
status of the chronologically last record among the pair's rows of the
DEDUPLICATED ledger — the code instead reduces the raw ledger. -/
def specLatestStatusDedup (l : List PaymentRecord)
    (k : String × String) : Option String :=
  (((List.insertionSort dateLE (deduplicate_payments l)).filter
      (matchesKey k.1 k.2)).getLast?).map (·.status)

/-! ### String-order lemmas -/

theorem charsLe_total (a b : List Char) :
    charsLe a b = true ∨ charsLe b a = true := by
  induction a generalizing b with
  | nil => left; rfl
  | cons x xs ih =>
    cases b with
    | nil => right; rfl
    | cons y ys =>
      by_cases hxy : x < y
      · left; simp [charsLe, hxy]
      · by_cases hyx : y < x
        · right; simp [charsLe, hyx, asymm hyx]
        · rcases ih ys with h | h
          · left; simp [charsLe, hxy, hyx, h]
          · right; simp [charsLe, hxy, hyx, h]

theorem charsLe_trans (a b c : List Char) (hab : charsLe a b = true)
    (hbc : charsLe b c = true) : charsLe a c = true := by
  induction a generalizing b c with
  | nil => rfl
  | cons x xs ih =>
    cases b with
    | nil => simp [charsLe] at hab
    | cons y ys =>
      cases c with
      | nil => simp [charsLe] at hbc
      | cons z zs =>
        by_cases hxy : x < y
        · -- x < y; combine with the y-z comparison
          by_cases hyz : y < z
          · simp [charsLe, lt_trans hxy hyz]
          · by_cases hzy : z < y
            · simp [charsLe, hyz, hzy] at hbc
            · have : y = z := le_antisymm (not_lt.mp hzy) (not_lt.mp hyz)
              simp [charsLe, this ▸ hxy]
        · by_cases hyx : y < x
          · simp [charsLe, hxy, hyx] at hab
          · have hxy2 : x = y := le_antisymm (not_lt.mp hyx) (not_lt.mp hxy)
            simp only [charsLe, if_neg hxy, if_neg hyx] at hab
            by_cases hyz : y < z
            · subst hxy2; simp [charsLe, hyz]
            · by_cases hzy : z < y
              · simp [charsLe, hyz, hzy] at hbc
              · have hyz2 : y = z := le_antisymm (not_lt.mp hzy) (not_lt.mp hyz)
                simp only [charsLe, if_neg hyz, if_neg hzy] at hbc
                subst hxy2; subst hyz2
                simp [charsLe, lt_irrefl, ih ys zs hab hbc]

theorem strLe_total (a b : String) : strLe a b = true ∨ strLe b a = true :=
  charsLe_total a.data b.data

theorem strLe_trans (a b c : String) (hab : strLe a b = true)
    (hbc : strLe b c = true) : strLe a c = true :=
  charsLe_trans a.data b.data c.data hab hbc

instance : IsTotal AgentQuote quoteLE :=
  ⟨fun q1 q2 => strLe_total q1.agent_id q2.agent_id⟩

instance : IsTrans AgentQuote quoteLE :=
  ⟨fun q1 q2 q3 h h2 => strLe_trans q1.agent_id q2.agent_id q3.agent_id h h2⟩

/-! ### Deduplication lemmas -/

theorem dropDuplicatesKeepLast_cons (x : PaymentRecord)
    (xs : List PaymentRecord) :
    dropDuplicatesKeepLast (x :: xs) =
      if (dropDuplicatesKeepLast xs).any
          (fun s => decide (dedupKey s = dedupKey x)) then
        dropDuplicatesKeepLast xs
      else x :: dropDuplicatesKeepLast xs := rfl

theorem mem_dropDuplicatesKeepLast {r : PaymentRecord}
    {l : List PaymentRecord} (h : r ∈ dropDuplicatesKeepLast l) : r ∈ l := by
  induction l with
  | nil => simp [dropDuplicatesKeepLast] at h
  | cons x xs ih =>
    rw [dropDuplicatesKeepLast_cons] at h
    split at h
    · exact List.mem_cons_of_mem x (ih h)
    · rcases List.mem_cons.mp h with h' | h'
      · exact h' ▸ List.mem_cons_self x xs
      · exact List.mem_cons_of_mem x (ih h')

theorem mem_deduplicate_payments {r : PaymentRecord}
    {l : List PaymentRecord} (h : r ∈ deduplicate_payments l) : r ∈ l :=
  (List.mem_insertionSort paymentSortLeR).mp
    (mem_dropDuplicatesKeepLast h)

theorem pairwise_dropDuplicatesKeepLast (l : List PaymentRecord) :
    (dropDuplicatesKeepLast l).Pairwise
      (fun r s => dedupKey r ≠ dedupKey s) := by
  induction l with
  | nil => exact List.Pairwise.nil
  | cons x xs ih =>
    rw [dropDuplicatesKeepLast_cons]
    split
    · exact ih
    · rename_i hany
      refine List.Pairwise.cons (fun s hs heq => ?_) ih
      have hall : ∀ s ∈ dropDuplicatesKeepLast xs,
          ¬ dedupKey s = dedupKey x := by simpa using hany
      exact hall s hs heq.symm

theorem pairwise_dedupKey (l : List PaymentRecord) :
    (deduplicate_payments l).Pairwise
      (fun r s => dedupKey r ≠ dedupKey s) :=
  pairwise_dropDuplicatesKeepLast _

/-! ### Status-resolution lemmas -/

theorem matchesKey_iff (p a : String) (r : PaymentRecord) :
    matchesKey p a r = true ↔ r.policy_id = p ∧ r.agent_id = a := by
  simp [matchesKey]

theorem getLast?_mem' {α : Type} {l : List α} {b : α}
    (h : l.getLast? = some b) : b ∈ l := by
  cases l with
  | nil => simp at h
  | cons x xs =>
    rw [List.getLast?_eq_getLast _ (by simp)] at h
    exact (Option.some_inj.mp h) ▸ List.getLast_mem _

theorem sorted_getLast_max :
    ∀ (l : List PaymentRecord), l.Pairwise dateLE →
      ∀ (b : PaymentRecord), l.getLast? = some b →
      ∀ x ∈ l, x.paid_date ≤ b.paid_date := by
  intro l
  induction l with
  | nil => intro _ b hb; simp at hb
  | cons a t ih =>
    intro hs b hb x hx
    cases t with
    | nil =>
      have hxa : x = a := List.mem_singleton.mp hx
      have hab : a = b := by simpa using hb
      exact le_of_eq (congrArg PaymentRecord.paid_date (hxa.trans hab))
    | cons c cs =>
      rw [List.getLast?_cons_cons] at hb
      rcases List.mem_cons.mp hx with rfl | hx'
      · exact (List.pairwise_cons.mp hs).1 b (getLast?_mem' hb)
      · exact ih (List.pairwise_cons.mp hs).2 b hb x hx'

/-! ### Analysis-level lemmas -/

theorem analyzeRow_earned (carrier : List PaymentRecord) (today : Int)
    (row : CRMPolicy) :
    (analyzeRow carrier today row).earned_to_date =
      (((deduplicate_payments carrier).filter
          (matchesKey row.policy_id row.agent_id)).map (·.amount)).sum := by
  simp only [analyzeRow, calculate_earned_per_policy]
  by_cases h : ((deduplicate_payments carrier).filter
      (matchesKey row.policy_id row.agent_id)).isEmpty
  · simp [h, List.isEmpty_iff.mp h]
  · simp [h]

/-! ### Claim theorems: eligibility, analysis invariants, status -/

/-- C7: `determine_eligibility` holds iff the latest status is exactly
`"active"` and the submit date is at most `today` minus the configured
eligibility window (default 7 days); the boundary is inclusive (a policy
submitted exactly the window before the reference date is eligible, one
day later is not). -/
theorem eligibility_iff :
    (∀ (sd : Int) (st : String) (t : Int),
      determine_eligibility sd st t = true ↔
        st = "active" ∧ sd ≤ t - config_ELIGIBILITY_DAYS)
    ∧ (∀ t : Int,
        determine_eligibility (t - config_ELIGIBILITY_DAYS) "active" t = true
        ∧ determine_eligibility (t - config_ELIGIBILITY_DAYS + 1) "active" t
            = false) := by
  constructor
  · intro sd st t
    simp [determine_eligibility]
  · intro t
    refine ⟨by simp [determine_eligibility], ?_⟩
    simp only [determine_eligibility, config_ELIGIBILITY_DAYS]
    simp only [Bool.and_eq_false_iff, decide_eq_false_iff_not]
    right
    omega

/-- C5: every `PolicyAnalysis` the pipeline produces has a
non-negative `remaining_expected` (floored by `max(·, 0)`). -/
theorem remaining_expected_nonneg (carrier : List PaymentRecord)
    (crm : List CRMPolicy) (pa : PolicyAnalysis)
    (hpa : pa ∈ analyze_policies carrier crm) :
    0 ≤ pa.remaining_expected := by
  rcases List.mem_map.mp hpa with ⟨row, _, hrow⟩
  rw [← hrow]
  exact le_max_right _ _

/-- Witness for `remaining_expected_nonneg` at a concrete roster row. -/
theorem remaining_expected_nonneg_witness :
    0 ≤ (analyzeRow [] get_today ⟨"P1", "A1", 739420, 100⟩).remaining_expected :=
  remaining_expected_nonneg [] [⟨"P1", "A1", 739420, 100⟩] _
    (List.mem_singleton.mpr rfl)

/-- C2: the deduplicated ledger keeps at most one row per
`(policy_id, paid_date, amount)` triple, and every analysis's
`earned_to_date` is the signed sum of the amounts of its pair's rows in
the deduplicated ledger (negative claw-backs subtract, no flooring). -/
theorem earned_is_dedup_signed_sum (carrier : List PaymentRecord)
    (crm : List CRMPolicy) :
    (deduplicate_payments carrier).Pairwise
      (fun r s => dedupKey r ≠ dedupKey s)
    ∧ ∀ pa ∈ analyze_policies carrier crm,
        pa.earned_to_date =
          (((deduplicate_payments carrier).filter
              (matchesKey pa.policy_id pa.agent_id)).map (·.amount)).sum := by
  refine ⟨pairwise_dedupKey carrier, ?_⟩
  intro pa hpa
  rcases List.mem_map.mp hpa with ⟨row, _, hrow⟩
  rw [← hrow]
  exact analyzeRow_earned carrier get_today row

/-- Witness for `earned_is_dedup_signed_sum`: two identical 175 rows
(same policy, date, amount) contribute 175, not 350. -/
theorem earned_is_dedup_signed_sum_witness :
    ((analyzeRow
        [⟨"P1", "A1", "Acme", 739430, 175, "active"⟩,
         ⟨"P1", "A1", "Acme", 739430, 175, "active"⟩] get_today
        ⟨"P1", "A1", 739420, 800⟩).earned_to_date =
      (((deduplicate_payments
          [⟨"P1", "A1", "Acme", 739430, 175, "active"⟩,
           ⟨"P1", "A1", "Acme", 739430, 175, "active"⟩]).filter
          (matchesKey "P1" "A1")).map (·.amount)).sum)
    ∧ (analyzeRow
        [⟨"P1", "A1", "Acme", 739430, 175, "active"⟩,
         ⟨"P1", "A1", "Acme", 739430, 175, "active"⟩] get_today
        ⟨"P1", "A1", 739420, 800⟩).earned_to_date = 175 := by
  constructor
  · exact (earned_is_dedup_signed_sum
      [⟨"P1", "A1", "Acme", 739430, 175, "active"⟩,
       ⟨"P1", "A1", "Acme", 739430, 175, "active"⟩]
      [⟨"P1", "A1", 739420, 800⟩]).2 _ (List.mem_singleton.mpr rfl)
  · norm_num [analyzeRow, calculate_earned_per_policy, deduplicate_payments,
      dropDuplicatesKeepLast, List.insertionSort, List.orderedInsert,
      paymentSortLeR, paymentSortLe, dedupKey, matchesKey, strLe, charsLe]

/-- C3 counterexample: two raw rows that are duplicates up to status
(same policy, agent, paid date, amount; statuses `cancelled` then
`active`).  The deduplicated ledger keeps only the `cancelled` row, so
the claim's value is `cancelled`; the code, reducing the RAW ledger,
returns `active` — and returns `cancelled` when the same two rows arrive
in the opposite order, so the result is input-order dependent. -/
theorem latest_status_raw_vs_dedup_cex :
    get_latest_policy_status
        [⟨"P1", "A1", "Acme", 739430, 100, "cancelled"⟩,
         ⟨"P1", "A1", "Acme", 739430, 100, "active"⟩] ("P1", "A1")
      = some "active"
    ∧ specLatestStatusDedup
        [⟨"P1", "A1", "Acme", 739430, 100, "cancelled"⟩,
         ⟨"P1", "A1", "Acme", 739430, 100, "active"⟩] ("P1", "A1")
      = some "cancelled"
    ∧ get_latest_policy_status
        [⟨"P1", "A1", "Acme", 739430, 100, "active"⟩,
         ⟨"P1", "A1", "Acme", 739430, 100, "cancelled"⟩] ("P1", "A1")
      = some "cancelled" :=
  ⟨by decide, by decide, by decide⟩

/-- C3 (amended): `get_latest_policy_status` reduces the RAW ledger.
When all of the pair's rows of maximal paid date agree on status — in
particular when the maximal paid date is attained by a single row — the
result is that status, independently of input order; and a `cancelled`
latest status makes the policy ineligible. -/
theorem latest_status_unique_max :
    (∀ (l : List PaymentRecord) (p a : String) (r : PaymentRecord),
      r ∈ l → r.policy_id = p → r.agent_id = a →
      (∀ s ∈ l, s.policy_id = p → s.agent_id = a →
        s.paid_date ≤ r.paid_date) →
      (∀ s ∈ l, s.policy_id = p → s.agent_id = a →
        s.paid_date = r.paid_date → s.status = r.status) →
      get_latest_policy_status l (p, a) = some r.status)
    ∧ (∀ (sd t : Int), determine_eligibility sd "cancelled" t = false) := by
  constructor
  · intro l p a r hr hp ha hmax htie
    unfold get_latest_policy_status
    set L := (List.insertionSort dateLE l).filter (matchesKey p a) with hL
    have hrL : r ∈ L := List.mem_filter.mpr
      ⟨(List.mem_insertionSort dateLE).mpr hr,
        (matchesKey_iff p a r).mpr ⟨hp, ha⟩⟩
    cases hb : L.getLast? with
    | none =>
      rw [List.getLast?_eq_none_iff] at hb
      rw [hb] at hrL
      simp at hrL
    | some b =>
      have hbL : b ∈ L := getLast?_mem' hb
      have hbl : b ∈ l ∧ b.policy_id = p ∧ b.agent_id = a := by
        rcases List.mem_filter.mp hbL with ⟨hb1, hb2⟩
        exact ⟨(List.mem_insertionSort dateLE).mp hb1,
          ((matchesKey_iff p a b).mp hb2).1, ((matchesKey_iff p a b).mp hb2).2⟩
      have hsorted : L.Pairwise dateLE :=
        List.Pairwise.filter _ (List.sorted_insertionSort dateLE l)
      have h1 : b.paid_date ≤ r.paid_date :=
        hmax b hbl.1 hbl.2.1 hbl.2.2
      have h2 : r.paid_date ≤ b.paid_date :=
        sorted_getLast_max L hsorted b hb r hrL
      have heq : b.status = r.status :=
        htie b hbl.1 hbl.2.1 hbl.2.2 (le_antisymm h1 h2)
      simp [heq]
  · intro sd t
    simp [determine_eligibility]

/-- Witness for `latest_status_unique_max`: a retro cancellation on a
later date wins over an earlier active record. -/
theorem latest_status_unique_max_witness :
    get_latest_policy_status
        [⟨"P001", "A1", "H", 739416, 200, "active"⟩,
         ⟨"P001", "A1", "H", 739432, 150, "cancelled"⟩] ("P001", "A1")
      = some "cancelled"
    ∧ determine_eligibility 739400 "cancelled" 739438 = false :=
  ⟨latest_status_unique_max.1
      [⟨"P001", "A1", "H", 739416, 200, "active"⟩,
       ⟨"P001", "A1", "H", 739432, 150, "cancelled"⟩] "P001" "A1"
      ⟨"P001", "A1", "H", 739432, 150, "cancelled"⟩
      (by decide) rfl rfl (by decide) (by decide),
    latest_status_unique_max.2 739400 739438⟩

/-- C6: a roster entry with no matching ledger rows gets
`earned_to_date = 0`, `latest_status = "active"`, and eligibility
reduces to the submit-date test against the reference date. -/
theorem no_payment_defaults (carrier : List PaymentRecord)
    (crm : List CRMPolicy) (i : Nat) (row : CRMPolicy)
    (hrow : crm[i]? = some row)
    (hnone : ∀ rec ∈ carrier,
      ¬(rec.policy_id = row.policy_id ∧ rec.agent_id = row.agent_id)) :
    ∃ pa, (analyze_policies carrier crm)[i]? = some pa
      ∧ pa.earned_to_date = 0
      ∧ pa.latest_status = "active"
      ∧ pa.is_eligible =
          decide (row.submit_date ≤ get_today - config_ELIGIBILITY_DAYS) := by
  have hfilter1 : (deduplicate_payments carrier).filter
      (matchesKey row.policy_id row.agent_id) = [] :=
    List.filter_eq_nil_iff.mpr (fun r hr hm =>
      hnone r (mem_deduplicate_payments hr)
        ((matchesKey_iff row.policy_id row.agent_id r).mp hm))
  have hfilter2 : (List.insertionSort dateLE carrier).filter
      (matchesKey row.policy_id row.agent_id) = [] :=
    List.filter_eq_nil_iff.mpr (fun r hr hm =>
      hnone r ((List.mem_insertionSort dateLE).mp hr)
        ((matchesKey_iff row.policy_id row.agent_id r).mp hm))
  refine ⟨analyzeRow carrier get_today row, ?_, ?_, ?_, ?_⟩
  · simp [analyze_policies, List.getElem?_map, hrow]
  · simp [analyzeRow, calculate_earned_per_policy, hfilter1]
  · simp [analyzeRow, get_latest_policy_status, hfilter2]
  · simp [analyzeRow, get_latest_policy_status, hfilter2,
      determine_eligibility]

/-- Witness for `no_payment_defaults`: a roster entry whose key matches
no ledger row, next to an unrelated ledger row. -/
theorem no_payment_defaults_witness :
    ∃ pa, (analyze_policies
        [⟨"P9", "A9", "C", 739430, 50, "active"⟩]
        [⟨"P1", "A1", 739431, 600⟩])[0]? = some pa
      ∧ pa.earned_to_date = 0
      ∧ pa.latest_status = "active"
      ∧ pa.is_eligible =
          decide ((739431 : Int) ≤ get_today - config_ELIGIBILITY_DAYS) :=
  no_payment_defaults [⟨"P9", "A9", "C", 739430, 50, "active"⟩]
    [⟨"P1", "A1", 739431, 600⟩] 0 ⟨"P1", "A1", 739431, 600⟩
    rfl (by decide)

/-! ### Aggregator lemmas -/

/-- Association-list lookup for the accumulator. -/
def lookupAcc : List (String × AgentData) → String → Option AgentData
  | [], _ => none
  | (b, d) :: rest, a => if b = a then some d else lookupAcc rest a

theorem lookupAcc_update (acc : List (String × AgentData))
    (pa : PolicyAnalysis) (a : String) :
    lookupAcc (updateAcc acc pa) a =
      if pa.agent_id = a then
        some (addAnalysis ((lookupAcc acc a).getD initAgentData) pa)
      else lookupAcc acc a := by
  induction acc with
  | nil =>
    by_cases h : pa.agent_id = a <;> simp [updateAcc, lookupAcc, h]
  | cons e rest ih =>
    obtain ⟨b, d⟩ := e
    by_cases hb : b = pa.agent_id
    · by_cases hba : b = a
      · have hpa : pa.agent_id = a := hb.symm.trans hba
        simp [updateAcc, lookupAcc, hb, hba, hpa]
      · have hpa : ¬ pa.agent_id = a := fun h => hba (hb.trans h)
        simp [updateAcc, lookupAcc, hb, hba, hpa]
    · by_cases hba : b = a
      · have hpa : ¬ pa.agent_id = a := fun h => hb (hba.trans h.symm)
        have hpa2 : ¬ a = pa.agent_id := fun h => hpa h.symm
        simp [updateAcc, lookupAcc, hb, hba, hpa, hpa2]
      · simp [updateAcc, lookupAcc, hb, hba, ih]

theorem keys_updateAcc (acc : List (String × AgentData))
    (pa : PolicyAnalysis) :
    (updateAcc acc pa).map Prod.fst =
      if pa.agent_id ∈ acc.map Prod.fst then acc.map Prod.fst
      else acc.map Prod.fst ++ [pa.agent_id] := by
  induction acc with
  | nil => simp [updateAcc]
  | cons e rest ih =>
    obtain ⟨b, d⟩ := e
    by_cases hb : b = pa.agent_id
    · simp [updateAcc, hb]
    · have hb' : ¬ pa.agent_id = b := fun h => hb h.symm
      by_cases hmem : pa.agent_id ∈ rest.map Prod.fst <;>
        simp [updateAcc, hb, hb', ih, hmem]

theorem nodup_keys_updateAcc (acc : List (String × AgentData))
    (pa : PolicyAnalysis) (h : (acc.map Prod.fst).Nodup) :
    ((updateAcc acc pa).map Prod.fst).Nodup := by
  rw [keys_updateAcc]
  split
  · exact h
  · rename_i hmem
    exact List.nodup_append.mpr
      ⟨h, List.nodup_singleton _,
        by simpa [List.disjoint_singleton] using hmem⟩

theorem lookupAcc_of_mem :
    ∀ (acc : List (String × AgentData)) (a : String) (d : AgentData),
      (acc.map Prod.fst).Nodup → (a, d) ∈ acc → lookupAcc acc a = some d := by
  intro acc
  induction acc with
  | nil => simp
  | cons e rest ih =>
    intro a d hnd hmem
    obtain ⟨b, d0⟩ := e
    rcases List.mem_cons.mp hmem with heq | hmem'
    · have h1 : a = b ∧ d = d0 := by simpa [Prod.mk.injEq] using heq
      simp [lookupAcc, h1.1, h1.2]
    · have ha : a ∈ rest.map Prod.fst :=
        List.mem_map.mpr ⟨(a, d), hmem', rfl⟩
      have hb : ¬ b = a := fun h =>
        (List.pairwise_cons.mp hnd).1 a ha (h ▸ rfl)
      simp only [lookupAcc, if_neg hb]
      exact ih a d (List.pairwise_cons.mp hnd).2 hmem'

theorem mem_of_lookupAcc :
    ∀ (acc : List (String × AgentData)) (a : String) (d : AgentData),
      lookupAcc acc a = some d → (a, d) ∈ acc := by
  intro acc
  induction acc with
  | nil => simp [lookupAcc]
  | cons e rest ih =>
    intro a d h
    obtain ⟨b, d0⟩ := e
    by_cases hb : b = a
    · simp only [lookupAcc, if_pos hb] at h
      exact List.mem_cons.mpr (Or.inl (by
        rw [Prod.mk.injEq]
        exact ⟨hb.symm, (Option.some_inj.mp h).symm⟩))
    · simp only [lookupAcc, if_neg hb] at h
      exact List.mem_cons.mpr (Or.inr (ih a d h))

theorem accSpec_not_mem (P : List PolicyAnalysis) (a : String)
    (h : a ∉ P.map (·.agent_id)) : accSpec P a = initAgentData := by
  have hnil : agentPolicies P a = [] :=
    List.filter_eq_nil_iff.mpr (fun pa hpa hd =>
      h (List.mem_map.mpr ⟨pa, hpa, by simpa using hd⟩))
  simp [accSpec, hnil, initAgentData]

theorem accSpec_snoc (P : List PolicyAnalysis) (pa : PolicyAnalysis)
    (a : String) :
    accSpec (P ++ [pa]) a =
      if pa.agent_id = a then addAnalysis (accSpec P a) pa
      else accSpec P a := by
  by_cases h : pa.agent_id = a
  · have hfa : agentPolicies (P ++ [pa]) a = agentPolicies P a ++ [pa] := by
      simp [agentPolicies, List.filter_append, h]
    by_cases he : pa.is_eligible <;>
      simp [accSpec, hfa, addAnalysis, h, he, List.filter_append,
        List.sum_append]
  · have hfa : agentPolicies (P ++ [pa]) a = agentPolicies P a := by
      simp [agentPolicies, List.filter_append, h]
    simp [accSpec, hfa, h]

/-- Invariant tying the accumulator to the spec-side totals over the
processed prefix. -/
def GoodAcc (P : List PolicyAnalysis)
    (acc : List (String × AgentData)) : Prop :=
  (acc.map Prod.fst).Nodup ∧
  ∀ a : String, lookupAcc acc a =
    if a ∈ P.map (·.agent_id) then some (accSpec P a) else none

theorem goodAcc_step (P : List PolicyAnalysis)
    (acc : List (String × AgentData)) (pa : PolicyAnalysis)
    (h : GoodAcc P acc) : GoodAcc (P ++ [pa]) (updateAcc acc pa) := by
  obtain ⟨hnd, hlk⟩ := h
  refine ⟨nodup_keys_updateAcc acc pa hnd, fun a => ?_⟩
  rw [lookupAcc_update, hlk a]
  by_cases hpa : pa.agent_id = a
  · subst hpa
    by_cases hm : pa.agent_id ∈ P.map (·.agent_id) <;>
      simp [hm, accSpec_snoc, accSpec_not_mem P pa.agent_id]
  · have hpa' : ¬ a = pa.agent_id := fun h => hpa h.symm
    simp [hpa, hpa', accSpec_snoc]

theorem goodAcc_foldl :
    ∀ (l P : List PolicyAnalysis) (acc : List (String × AgentData)),
      GoodAcc P acc → GoodAcc (P ++ l) (l.foldl updateAcc acc) := by
  intro l
  induction l with
  | nil => intro P acc h; simpa using h
  | cons x xs ih =>
    intro P acc h
    have h3 := ih (P ++ [x]) (updateAcc acc x) (goodAcc_step P acc x h)
    simpa [List.append_assoc] using h3

theorem goodAcc_accumulate (l : List PolicyAnalysis) :
    GoodAcc l (accumulate l) := by
  have h0 : GoodAcc [] [] := ⟨by simp, fun a => by simp [lookupAcc]⟩
  simpa using goodAcc_foldl l [] [] h0

theorem mem_quotes_iff (l : List PolicyAnalysis) (rate cap : ℚ)
    (q : AgentQuote) :
    q ∈ calculate_agent_quotes l rate cap ↔
      ∃ e ∈ accumulate l, mkQuote rate cap e = q := by
  unfold calculate_agent_quotes
  rw [(List.perm_insertionSort quoteLE _).mem_iff]
  exact List.mem_map

theorem quote_char (l : List PolicyAnalysis) (rate cap : ℚ)
    (q : AgentQuote) (hq : q ∈ calculate_agent_quotes l rate cap) :
    q.agent_id ∈ l.map (·.agent_id)
    ∧ q.earned_to_date = (accSpec l q.agent_id).total_earned
    ∧ q.total_eligible_remaining =
        (accSpec l q.agent_id).total_eligible_remaining
    ∧ q.eligible_policies_count =
        (accSpec l q.agent_id).eligible_policies_count
    ∧ q.safe_to_advance =
        min ((accSpec l q.agent_id).total_eligible_remaining * rate) cap := by
  rcases (mem_quotes_iff l rate cap q).mp hq with ⟨e, he, hmk⟩
  obtain ⟨hnd, hlk⟩ := goodAcc_accumulate l
  have hlk2 : lookupAcc (accumulate l) e.1 = some e.2 :=
    lookupAcc_of_mem _ _ _ hnd he
  rw [hlk e.1] at hlk2
  by_cases hm : e.1 ∈ l.map (·.agent_id)
  · rw [if_pos hm] at hlk2
    have he2 : e.2 = accSpec l e.1 := (Option.some_inj.mp hlk2).symm
    subst hmk
    exact ⟨hm, by simp [mkQuote, he2], by simp [mkQuote, he2],
      by simp [mkQuote, he2], by simp [mkQuote, he2]⟩
  · rw [if_neg hm] at hlk2
    exact absurd hlk2 (by simp)

theorem exists_quote (l : List PolicyAnalysis) (rate cap : ℚ) (a : String)
    (ha : a ∈ l.map (·.agent_id)) :
    ∃ q ∈ calculate_agent_quotes l rate cap, q.agent_id = a := by
  obtain ⟨hnd, hlk⟩ := goodAcc_accumulate l
  have hsome : lookupAcc (accumulate l) a = some (accSpec l a) := by
    rw [hlk a, if_pos ha]
  exact ⟨mkQuote rate cap (a, accSpec l a),
    (mem_quotes_iff l rate cap _).mpr
      ⟨(a, accSpec l a), mem_of_lookupAcc _ _ _ hsome, rfl⟩, rfl⟩

theorem quotes_agents_nodup (l : List PolicyAnalysis) (rate cap : ℚ) :
    ((calculate_agent_quotes l rate cap).map (·.agent_id)).Nodup := by
  have hperm := List.perm_insertionSort quoteLE
    ((accumulate l).map (mkQuote rate cap))
  unfold calculate_agent_quotes
  rw [(hperm.map (·.agent_id)).nodup_iff, List.map_map]
  exact (goodAcc_accumulate l).1

theorem quotes_sorted (l : List PolicyAnalysis) (rate cap : ℚ) :
    (calculate_agent_quotes l rate cap).Pairwise quoteLE :=
  List.sorted_insertionSort quoteLE _

theorem analyze_agents (carrier : List PaymentRecord)
    (crm : List CRMPolicy) :
    (analyze_policies carrier crm).map (·.agent_id) =
      crm.map (·.agent_id) := by
  rw [analyze_policies, List.map_map]
  rfl

/-! ### Claim theorems: quote coverage, bounds, aggregation -/

/-- C1: the pipeline emits exactly one quote per distinct roster agent
and none for other agents; an empty roster gives an empty quote list;
an empty ledger gives all-zero `earned_to_date`. -/
theorem quotes_cover_roster_agents (carrier : List PaymentRecord)
    (crm : List CRMPolicy) :
    (∀ a : String,
      (∃ q ∈ compute_quotes carrier crm, q.agent_id = a) ↔
        a ∈ crm.map (·.agent_id))
    ∧ (compute_quotes carrier crm).Pairwise
        (fun q1 q2 => q1.agent_id ≠ q2.agent_id)
    ∧ (crm = [] → compute_quotes carrier crm = [])
    ∧ (carrier = [] → ∀ q ∈ compute_quotes carrier crm,
        q.earned_to_date = 0) := by
  refine ⟨fun a => ⟨?_, ?_⟩, ?_, ?_, ?_⟩
  · rintro ⟨q, hq, rfl⟩
    have := (quote_char _ _ _ q hq).1
    rwa [analyze_agents] at this
  · intro ha
    exact exists_quote _ _ _ a (by rwa [analyze_agents])
  · have h := quotes_agents_nodup (analyze_policies carrier crm)
      config_ADVANCE_PERCENTAGE config_MAX_ADVANCE_AMOUNT
    unfold List.Nodup at h
    exact List.pairwise_map.mp h
  · intro h
    subst h
    rfl
  · intro h q hq
    subst h
    rw [(quote_char _ _ _ q hq).2.1]
    apply List.sum_eq_zero
    intro x hx
    rcases List.mem_map.mp hx with ⟨pa, hpa, rfl⟩
    have hpa2 : pa ∈ analyze_policies [] crm :=
      ((List.filter_sublist _)).mem hpa
    rcases List.mem_map.mp hpa2 with ⟨row, _, rfl⟩
    rfl

/-- Witness for `quotes_cover_roster_agents`: a one-row roster and empty
ledger produce a quote for exactly agent `A1` with zero earned. -/
theorem quotes_cover_roster_agents_witness :
    (∃ q ∈ compute_quotes [] [⟨"P1", "A1", 739420, 800⟩],
      q.agent_id = "A1")
    ∧ compute_quotes [] ([] : List CRMPolicy) = []
    ∧ (∀ q ∈ compute_quotes [] [⟨"P1", "A1", 739420, 800⟩],
        q.earned_to_date = 0) :=
  ⟨(quotes_cover_roster_agents [] [⟨"P1", "A1", 739420, 800⟩]).1 "A1"
      |>.mpr (by decide),
    (quotes_cover_roster_agents [] []).2.2.1 rfl,
    (quotes_cover_roster_agents [] [⟨"P1", "A1", 739420, 800⟩]).2.2.2 rfl⟩

/-- C4: every quote the pipeline produces has
`safe_to_advance ∈ [0, advance_cap]`. -/
theorem safe_to_advance_in_range (carrier : List PaymentRecord)
    (crm : List CRMPolicy) (q : AgentQuote)
    (hq : q ∈ compute_quotes carrier crm) :
    0 ≤ q.safe_to_advance
    ∧ q.safe_to_advance ≤ config_MAX_ADVANCE_AMOUNT := by
  have hc := quote_char _ _ _ q hq
  have ht : 0 ≤ (accSpec (analyze_policies carrier crm)
      q.agent_id).total_eligible_remaining := by
    apply List.sum_nonneg
    intro x hx
    rcases List.mem_map.mp hx with ⟨pa, hpa, rfl⟩
    have hpa2 : pa ∈ analyze_policies carrier crm :=
      ((List.filter_sublist _).trans (List.filter_sublist _)).mem hpa
    exact remaining_expected_nonneg carrier crm pa hpa2
  rw [hc.2.2.2.2]
  refine ⟨le_min (mul_nonneg ht ?_) ?_, min_le_right _ _⟩
  · norm_num [config_ADVANCE_PERCENTAGE]
  · norm_num [config_MAX_ADVANCE_AMOUNT]

/-- Witness for `safe_to_advance_in_range` on a concrete one-row roster. -/
theorem safe_to_advance_in_range_witness :
    0 ≤ (mkQuote config_ADVANCE_PERCENTAGE config_MAX_ADVANCE_AMOUNT
        ("A1", addAnalysis initAgentData
          (analyzeRow [] get_today ⟨"P1", "A1", 739420, 800⟩))).safe_to_advance
    ∧ (mkQuote config_ADVANCE_PERCENTAGE config_MAX_ADVANCE_AMOUNT
        ("A1", addAnalysis initAgentData
          (analyzeRow [] get_today
            ⟨"P1", "A1", 739420, 800⟩))).safe_to_advance
        ≤ config_MAX_ADVANCE_AMOUNT :=
  safe_to_advance_in_range [] [⟨"P1", "A1", 739420, 800⟩] _
    (List.mem_singleton.mpr rfl)

/-- C8: the aggregator sums earned over ALL of an agent's policies,
sums remaining value and counts over eligible policies only, caps the
rate-adjusted amount, and returns quotes sorted ascending by agent id;
the configured defaults are rate 0.80 and cap 2000. -/
theorem agent_aggregation_spec (analyses : List PolicyAnalysis) :
    (∀ q ∈ calculate_agent_quotes analyses
        config_ADVANCE_PERCENTAGE config_MAX_ADVANCE_AMOUNT,
      q.earned_to_date =
        ((agentPolicies analyses q.agent_id).map (·.earned_to_date)).sum
      ∧ q.total_eligible_remaining =
          (((agentPolicies analyses q.agent_id).filter
            (·.is_eligible)).map (·.remaining_expected)).sum
      ∧ q.eligible_policies_count =
          ((agentPolicies analyses q.agent_id).filter
            (·.is_eligible)).length
      ∧ q.safe_to_advance =
          min (q.total_eligible_remaining * config_ADVANCE_PERCENTAGE)
            config_MAX_ADVANCE_AMOUNT)
    ∧ (calculate_agent_quotes analyses
        config_ADVANCE_PERCENTAGE config_MAX_ADVANCE_AMOUNT).Pairwise
        (fun q1 q2 => strLe q1.agent_id q2.agent_id = true)
    ∧ config_ADVANCE_PERCENTAGE = 4 / 5
    ∧ config_MAX_ADVANCE_AMOUNT = 2000 := by
  refine ⟨?_, quotes_sorted _ _ _, by norm_num [config_ADVANCE_PERCENTAGE],
    rfl⟩
  intro q hq
  have hc := quote_char _ _ _ q hq
  exact ⟨hc.2.1, hc.2.2.1, hc.2.2.2.1, by rw [hc.2.2.2.2, hc.2.2.1]⟩

/-- Witness for `agent_aggregation_spec` on a single eligible analysis. -/
theorem agent_aggregation_spec_witness :
    (mkQuote config_ADVANCE_PERCENTAGE config_MAX_ADVANCE_AMOUNT
        ("A1", addAnalysis initAgentData
          ⟨"P1", "A1", 100, 400, true, 739420, "active"⟩)).earned_to_date =
      ((agentPolicies [⟨"P1", "A1", 100, 400, true, 739420, "active"⟩]
          "A1").map (·.earned_to_date)).sum :=
  ((agent_aggregation_spec
      [⟨"P1", "A1", 100, 400, true, 739420, "active"⟩]).1 _
    (List.mem_singleton.mpr rfl)).1

/-! ### Validators (`app/validators.py`)

A raw CSV cell, as seen after `pd.read_csv` and before type cleaning, is
embedded by what the validator can observe of it: string cells are `NA`
or a string; date cells are `NA`, an unparseable string, or a parsed
date; numeric cells either fail `float(...)` or yield a value.
`str.strip() == ""` is embedded as all-whitespace, `str.lower()` as a
character-wise lowering, both semantically exact for these checks. -/

/-- A raw string-typed cell (`policy_id`, `agent_id`, `carrier`,
`status`): `pd.isna` or a string value. -/
inductive StrCell where
  | na : StrCell
  | val : String → StrCell
deriving DecidableEq, Repr

/-- A raw date cell: `pd.isna`, a string `datetime.strptime` rejects, or
a parsed `YYYY-MM-DD` date (as its ordinal). -/
inductive DateCell where
  | na : DateCell
  | bad : String → DateCell
  | ok : Int → DateCell
deriving DecidableEq, Repr

/-- A raw numeric cell: a value `float(...)` rejects, or a number. -/
inductive NumCell where
  | bad : String → NumCell
  | ok : ℚ → NumCell
deriving DecidableEq, Repr

/-- One raw carrier-remittance CSV data row. -/
structure RawCarrierRow where
  policy_id : StrCell
  agent_id : StrCell
  carrier : StrCell
  paid_date : DateCell
  amount : NumCell
  status : StrCell
deriving DecidableEq, Repr

/-- One raw CRM-policies CSV data row. -/
structure RawCRMRow where
  policy_id : StrCell
  agent_id : StrCell
  submit_date : DateCell
  ltv_expected : NumCell
deriving DecidableEq, Repr

/-- `pd.isna(v) or str(v).strip() == ""`. -/
def strCellEmpty : StrCell → Bool
  | .na => true
  | .val s => s.data.all Char.isWhitespace

/-- How Python renders the cell inside an f-string. -/
def strCellRender : StrCell → String
  | .na => "nan"
  | .val s => s

/-- `str(v).lower() in {"active", "cancelled"}` and not `pd.isna(v)`. -/
def statusValid : StrCell → Bool
  | .na => false
  | .val s =>
    decide (s.data.map Char.toLower = ("active").data) ||
      decide (s.data.map Char.toLower = ("cancelled").data)

/-- The `row_errors` list for one carrier row, in source order
(`policy_id`, `agent_id`, `paid_date`, `amount`, `status`).  The Python
set in the status message renders with braces and quotes; it is rendered
plainly here. -/
def carrierRowErrors (r : RawCarrierRow) : List String :=
  (if strCellEmpty r.policy_id then ["policy_id cannot be empty"] else [])
  ++ (if strCellEmpty r.agent_id then ["agent_id cannot be empty"] else [])
  ++ (match r.paid_date with
      | .na => ["paid_date cannot be empty"]
      | .bad raw => ["paid_date must be in YYYY-MM-DD format, got: " ++ raw]
      | .ok _ => [])
  ++ (match r.amount with
      | .bad raw => ["amount must be a valid number, got: " ++ raw]
      | .ok _ => [])
  ++ (if statusValid r.status then []
      else ["status must be one of [active, cancelled], got: " ++
        strCellRender r.status])

/-- The `row_errors` list for one CRM row, in source order
(`policy_id`, `agent_id`, `submit_date`, `ltv_expected`). -/
def crmRowErrors (r : RawCRMRow) : List String :=
  (if strCellEmpty r.policy_id then ["policy_id cannot be empty"] else [])
  ++ (if strCellEmpty r.agent_id then ["agent_id cannot be empty"] else [])
  ++ (match r.submit_date with
      | .na => ["submit_date cannot be empty"]
      | .bad raw => ["submit_date must be in YYYY-MM-DD format, got: " ++ raw]
      | .ok _ => [])
  ++ (match r.ltv_expected with
      | .bad raw =>
        ["ltv_expected must be a valid positive number, got: " ++ raw]
      | .ok q =>
        if q < 0 then ["ltv_expected must be non-negative, got: " ++ toString q]
        else [])

/-- Python's `sep.join(l)`. -/
def joinSep (sep : String) : List String → String
  | [] => ""
  | [s] => s
  | s :: t :: rest => s ++ sep ++ joinSep sep (t :: rest)

/-- The per-row validation loop: emit
`f"Row {row_idx + 2}: {'; '.join(row_errors)}"` for each row whose error
list is non-empty (`row_idx + 2` accounts for the header line and the
0-based index). -/
def rowMessages {ρ : Type} (f : ρ → List String) : Nat → List ρ → List String
  | _, [] => []
  | i, row :: rest =>
    (if (f row).isEmpty then []
     else ["Row " ++ toString (i + 2) ++ ": " ++ joinSep "; " (f row)])
    ++ rowMessages f (i + 1) rest

/-- `validate_carrier_remittance_csv` (`app/validators.py`), rows after
the column-presence check (columns are structural here). -/
def validate_carrier_remittance_csv (rows : List RawCarrierRow) :
    List String :=
  if rows.isEmpty then ["Carrier remittance CSV is empty"]
  else rowMessages carrierRowErrors 0 rows

/-- `validate_crm_policies_csv` (`app/validators.py`). -/
def validate_crm_policies_csv (rows : List RawCRMRow) : List String :=
  if rows.isEmpty then ["CRM policies CSV is empty"]
  else rowMessages crmRowErrors 0 rows

/-- The aggregated error list built by `validate_csvs`. -/
def allErrors (carrier : List RawCarrierRow) (crm : List RawCRMRow) :
    List String :=
  (validate_carrier_remittance_csv carrier).map
    (fun e => "Carrier Remittance - " ++ e)
  ++ (validate_crm_policies_csv crm).map (fun e => "CRM Policies - " ++ e)

/-- `validate_csvs` (`app/validators.py`): raise `ValidationError` with
the joined message when any error was collected (embedded as `Except`). -/
def validate_csvs (carrier : List RawCarrierRow) (crm : List RawCRMRow) :
    Except String Unit :=
  if (allErrors carrier crm).isEmpty then Except.ok ()
  else Except.error
    ("CSV validation failed:\n" ++ joinSep "\n" (allErrors carrier crm))

/-- A carrier row whose `paid_date`, `amount` or `status` fails its
domain check (the value-error fields of the claim). -/
def carrierValueBad (r : RawCarrierRow) : Bool :=
  (match r.paid_date with | .ok _ => false | _ => true)
  || (match r.amount with | .bad _ => true | .ok _ => false)
  || !(statusValid r.status)

/-- A CRM row whose `submit_date` or `ltv_expected` fails its domain
check. -/
def crmValueBad (r : RawCRMRow) : Bool :=
  (match r.submit_date with | .ok _ => false | _ => true)
  || (match r.ltv_expected with | .bad _ => true | .ok q => decide (q < 0))

/-- The names of the failing value-error fields of a carrier row. -/
def carrierBadFields (r : RawCarrierRow) : List String :=
  (match r.paid_date with | .ok _ => [] | _ => ["paid_date"])
  ++ (match r.amount with | .bad _ => ["amount"] | .ok _ => [])
  ++ (if statusValid r.status then [] else ["status"])

/-- The names of the failing value-error fields of a CRM row. -/
def crmBadFields (r : RawCRMRow) : List String :=
  (match r.submit_date with | .ok _ => [] | _ => ["submit_date"])
  ++ (match r.ltv_expected with
      | .bad _ => ["ltv_expected"]
      | .ok q => if q < 0 then ["ltv_expected"] else [])

/-- `needle` appears contiguously inside `hay`. -/
def occursIn (needle hay : String) : Prop :=
  ∃ u v, hay.data = u ++ needle.data ++ v

/-! ### Occurrence lemmas -/

theorem occursIn_refl (s : String) : occursIn s s := ⟨[], [], by simp⟩

theorem occursIn_append_left (n t h : String) (hn : occursIn n h) :
    occursIn n (t ++ h) := by
  rcases hn with ⟨u, v, huv⟩
  exact ⟨t.data ++ u, v,
    by rw [String.data_append, huv]; simp [List.append_assoc]⟩

theorem occursIn_append_right (n h t : String) (hn : occursIn n h) :
    occursIn n (h ++ t) := by
  rcases hn with ⟨u, v, huv⟩
  exact ⟨u, v ++ t.data,
    by rw [String.data_append, huv]; simp [List.append_assoc]⟩

theorem occursIn_trans (a b c : String) (h1 : occursIn a b)
    (h2 : occursIn b c) : occursIn a c := by
  rcases h1 with ⟨u1, v1, h1⟩
  rcases h2 with ⟨u2, v2, h2⟩
  exact ⟨u2 ++ u1, v1 ++ v2, by rw [h2, h1]; simp [List.append_assoc]⟩

theorem occursIn_of_data_eq (n lit : String) (rest : List Char)
    (hlit : lit.data = n.data ++ rest) : occursIn n lit :=
  ⟨[], rest, by simp [hlit]⟩

theorem occursIn_join_of_mem (sep : String) (l : List String) (e : String)
    (he : e ∈ l) : occursIn e (joinSep sep l) := by
  induction l with
  | nil => simp at he
  | cons s rest ih =>
    rcases List.mem_cons.mp he with rfl | he'
    · cases rest with
      | nil => exact occursIn_refl e
      | cons t r2 =>
        show occursIn e ((e ++ sep) ++ joinSep sep (t :: r2))
        exact occursIn_append_right e _ _
          (occursIn_append_right e e sep (occursIn_refl e))
    · cases rest with
      | nil => simp at he'
      | cons t r2 =>
        show occursIn e ((s ++ sep) ++ joinSep sep (t :: r2))
        exact occursIn_append_left e (s ++ sep) _ (ih he')

theorem rowTag_occurs (N body : String) :
    occursIn ("Row " ++ N ++ ":") ("Row " ++ N ++ ": " ++ body) := by
  refine ⟨[], ' ' :: body.data, ?_⟩
  have h1 : (": " : String) = ":" ++ " " := rfl
  rw [h1]
  simp [String.data_append, List.append_assoc]

theorem occursIn_msg_of_mem_allErrors (carrier : List RawCarrierRow)
    (crm : List RawCRMRow) (e : String)
    (he : e ∈ allErrors carrier crm) :
    occursIn e
      ("CSV validation failed:\n" ++ joinSep "\n" (allErrors carrier crm)) :=
  occursIn_append_left e _ _ (occursIn_join_of_mem "\n" _ e he)

/-! ### Row-message lemmas -/

theorem rowMessages_mem {ρ : Type} (f : ρ → List String) :
    ∀ (rows : List ρ) (i j : Nat) (row : ρ), rows[j]? = some row →
      f row ≠ [] →
      ("Row " ++ toString (i + j + 2) ++ ": " ++ joinSep "; " (f row)) ∈
        rowMessages f i rows := by
  intro rows
  induction rows with
  | nil => intro i j row h; simp at h
  | cons x xs ih =>
    intro i j row h hne
    cases j with
    | zero =>
      obtain rfl : x = row := by simpa using h
      rw [rowMessages]
      apply List.mem_append.mpr
      left
      rw [if_neg (by simpa [List.isEmpty_iff] using hne)]
      simp
    | succ j' =>
      have h' : xs[j']? = some row := by simpa using h
      have hmem := ih (i + 1) j' row h' hne
      rw [rowMessages]
      apply List.mem_append.mpr
      right
      rw [show i + (j' + 1) + 2 = i + 1 + j' + 2 from by omega]
      exact hmem

theorem mem_validate_carrier (rows : List RawCarrierRow) (i : Nat)
    (r : RawCarrierRow) (h : rows[i]? = some r)
    (hne : carrierRowErrors r ≠ []) :
    ("Row " ++ toString (i + 2) ++ ": " ++
        joinSep "; " (carrierRowErrors r)) ∈
      validate_carrier_remittance_csv rows := by
  have hrne : rows ≠ [] := fun hh => by subst hh; simp at h
  unfold validate_carrier_remittance_csv
  rw [if_neg (by simpa [List.isEmpty_iff] using hrne)]
  have hmem := rowMessages_mem carrierRowErrors rows 0 i r h hne
  simpa using hmem

theorem mem_validate_crm (rows : List RawCRMRow) (i : Nat)
    (r : RawCRMRow) (h : rows[i]? = some r) (hne : crmRowErrors r ≠ []) :
    ("Row " ++ toString (i + 2) ++ ": " ++ joinSep "; " (crmRowErrors r)) ∈
      validate_crm_policies_csv rows := by
  have hrne : rows ≠ [] := fun hh => by subst hh; simp at h
  unfold validate_crm_policies_csv
  rw [if_neg (by simpa [List.isEmpty_iff] using hrne)]
  have hmem := rowMessages_mem crmRowErrors rows 0 i r h hne
  simpa using hmem

theorem carrierRowErrors_ne_nil (r : RawCarrierRow)
    (h : carrierValueBad r = true) : carrierRowErrors r ≠ [] := by
  intro hnil
  cases hpd : r.paid_date <;> cases ham : r.amount <;>
    by_cases hst : statusValid r.status <;>
    simp_all [carrierRowErrors, carrierValueBad]

theorem crmRowErrors_ne_nil (r : RawCRMRow)
    (h : crmValueBad r = true) : crmRowErrors r ≠ [] := by
  intro hnil
  cases hsd : r.submit_date <;> cases hltv : r.ltv_expected <;>
    simp_all [crmRowErrors, crmValueBad]

theorem carrier_field_error (r : RawCarrierRow) (f : String)
    (hf : f ∈ carrierBadFields r) :
    ∃ e ∈ carrierRowErrors r, occursIn f e := by
  rcases List.mem_append.mp hf with hAB | hC
  · rcases List.mem_append.mp hAB with hA | hB
    · cases hpd : r.paid_date with
      | na =>
        rw [hpd] at hA
        obtain rfl : f = "paid_date" := by simpa using hA
        refine ⟨"paid_date cannot be empty", by simp [carrierRowErrors, hpd], ?_⟩
        exact occursIn_of_data_eq _ _ (" cannot be empty").data rfl
      | bad raw =>
        rw [hpd] at hA
        obtain rfl : f = "paid_date" := by simpa using hA
        refine ⟨"paid_date must be in YYYY-MM-DD format, got: " ++ raw,
          by simp [carrierRowErrors, hpd], ?_⟩
        exact occursIn_append_right _ _ raw
          (occursIn_of_data_eq _ _
            (" must be in YYYY-MM-DD format, got: ").data rfl)
      | ok d => rw [hpd] at hA; simp at hA
    · cases ham : r.amount with
      | bad raw =>
        rw [ham] at hB
        obtain rfl : f = "amount" := by simpa using hB
        refine ⟨"amount must be a valid number, got: " ++ raw,
          by simp [carrierRowErrors, ham], ?_⟩
        exact occursIn_append_right _ _ raw
          (occursIn_of_data_eq _ _ (" must be a valid number, got: ").data rfl)
      | ok q => rw [ham] at hB; simp at hB
  · by_cases hst : statusValid r.status
    · simp [hst] at hC
    · obtain rfl : f = "status" := by simpa [hst] using hC
      refine ⟨"status must be one of [active, cancelled], got: " ++
          strCellRender r.status, by simp [carrierRowErrors, hst], ?_⟩
      exact occursIn_append_right _ _ _
        (occursIn_of_data_eq _ _
          (" must be one of [active, cancelled], got: ").data rfl)

theorem crm_field_error (r : RawCRMRow) (f : String)
    (hf : f ∈ crmBadFields r) :
    ∃ e ∈ crmRowErrors r, occursIn f e := by
  rcases List.mem_append.mp hf with hA | hB
  · cases hsd : r.submit_date with
    | na =>
      rw [hsd] at hA
      obtain rfl : f = "submit_date" := by simpa using hA
      refine ⟨"submit_date cannot be empty", by simp [crmRowErrors, hsd], ?_⟩
      exact occursIn_of_data_eq _ _ (" cannot be empty").data rfl
    | bad raw =>
      rw [hsd] at hA
      obtain rfl : f = "submit_date" := by simpa using hA
      refine ⟨"submit_date must be in YYYY-MM-DD format, got: " ++ raw,
        by simp [crmRowErrors, hsd], ?_⟩
      exact occursIn_append_right _ _ raw
        (occursIn_of_data_eq _ _
          (" must be in YYYY-MM-DD format, got: ").data rfl)
    | ok d => rw [hsd] at hA; simp at hA
  · cases hltv : r.ltv_expected with
    | bad raw =>
      rw [hltv] at hB
      obtain rfl : f = "ltv_expected" := by simpa using hB
      refine ⟨"ltv_expected must be a valid positive number, got: " ++ raw,
        by simp [crmRowErrors, hltv], ?_⟩
      exact occursIn_append_right _ _ raw
        (occursIn_of_data_eq _ _
          (" must be a valid positive number, got: ").data rfl)
    | ok q =>
      rw [hltv] at hB
      by_cases hq : q < 0
      · obtain rfl : f = "ltv_expected" := by simpa [hq] using hB
        refine ⟨"ltv_expected must be non-negative, got: " ++ toString q,
          by simp [crmRowErrors, hltv, hq], ?_⟩
        exact occursIn_append_right _ _ _
          (occursIn_of_data_eq _ _
            (" must be non-negative, got: ").data rfl)
      · simp [hq] at hB

/-! ### Claim theorems: validation -/

/-- C9: if any row's `paid_date`, `amount`, `status` (carrier) or
`submit_date`, `ltv_expected` (CRM) fails its domain check,
`validate_csvs` rejects the whole batch with an error whose message
names each offending row as `Row (index + 2)` (1-based counting the
header line) and contains each failing field's name. -/
theorem validation_rejects_bad_rows (carrier : List RawCarrierRow)
    (crm : List RawCRMRow)
    (hbad : (∃ r ∈ carrier, carrierValueBad r = true) ∨
      (∃ r ∈ crm, crmValueBad r = true)) :
    ∃ msg, validate_csvs carrier crm = Except.error msg
      ∧ (∀ i r, carrier[i]? = some r → carrierValueBad r = true →
          occursIn ("Row " ++ toString (i + 2) ++ ":") msg
          ∧ ∀ f ∈ carrierBadFields r, occursIn f msg)
      ∧ (∀ i r, crm[i]? = some r → crmValueBad r = true →
          occursIn ("Row " ++ toString (i + 2) ++ ":") msg
          ∧ ∀ f ∈ crmBadFields r, occursIn f msg) := by
  have hANE : allErrors carrier crm ≠ [] := by
    intro h0
    rcases hbad with ⟨r, hr, hb⟩ | ⟨r, hr, hb⟩
    · rcases List.mem_iff_getElem?.mp hr with ⟨i, hi⟩
      have hmem := mem_validate_carrier carrier i r hi
        (carrierRowErrors_ne_nil r hb)
      have hline : ("Carrier Remittance - " ++
          ("Row " ++ toString (i + 2) ++ ": " ++
            joinSep "; " (carrierRowErrors r))) ∈ allErrors carrier crm :=
        List.mem_append.mpr (Or.inl (List.mem_map.mpr ⟨_, hmem, rfl⟩))
      rw [h0] at hline
      simp at hline
    · rcases List.mem_iff_getElem?.mp hr with ⟨i, hi⟩
      have hmem := mem_validate_crm crm i r hi (crmRowErrors_ne_nil r hb)
      have hline : ("CRM Policies - " ++
          ("Row " ++ toString (i + 2) ++ ": " ++
            joinSep "; " (crmRowErrors r))) ∈ allErrors carrier crm :=
        List.mem_append.mpr (Or.inr (List.mem_map.mpr ⟨_, hmem, rfl⟩))
      rw [h0] at hline
      simp at hline
  refine ⟨"CSV validation failed:\n" ++ joinSep "\n" (allErrors carrier crm),
    ?_, ?_, ?_⟩
  · unfold validate_csvs
    rw [if_neg (by simpa [List.isEmpty_iff] using hANE)]
  · intro i r hi hb
    have hmem := mem_validate_carrier carrier i r hi
      (carrierRowErrors_ne_nil r hb)
    have hline : ("Carrier Remittance - " ++
        ("Row " ++ toString (i + 2) ++ ": " ++
          joinSep "; " (carrierRowErrors r))) ∈ allErrors carrier crm :=
      List.mem_append.mpr (Or.inl (List.mem_map.mpr ⟨_, hmem, rfl⟩))
    have hlineMsg := occursIn_msg_of_mem_allErrors carrier crm _ hline
    constructor
    · refine occursIn_trans _ _ _ ?_ hlineMsg
      exact occursIn_append_left _ "Carrier Remittance - " _
        (rowTag_occurs (toString (i + 2)) (joinSep "; " (carrierRowErrors r)))
    · intro f hf
      rcases carrier_field_error r f hf with ⟨e, he, hocc⟩
      have h2 : occursIn e ("Row " ++ toString (i + 2) ++ ": " ++
          joinSep "; " (carrierRowErrors r)) :=
        occursIn_append_left e _ _ (occursIn_join_of_mem "; " _ e he)
      have h3 := occursIn_append_left e "Carrier Remittance - " _ h2
      exact occursIn_trans f e _ hocc (occursIn_trans e _ _ h3 hlineMsg)
  · intro i r hi hb
    have hmem := mem_validate_crm crm i r hi (crmRowErrors_ne_nil r hb)
    have hline : ("CRM Policies - " ++
        ("Row " ++ toString (i + 2) ++ ": " ++
          joinSep "; " (crmRowErrors r))) ∈ allErrors carrier crm :=
      List.mem_append.mpr (Or.inr (List.mem_map.mpr ⟨_, hmem, rfl⟩))
    have hlineMsg := occursIn_msg_of_mem_allErrors carrier crm _ hline
    constructor
    · refine occursIn_trans _ _ _ ?_ hlineMsg
      exact occursIn_append_left _ "CRM Policies - " _
        (rowTag_occurs (toString (i + 2)) (joinSep "; " (crmRowErrors r)))
    · intro f hf
      rcases crm_field_error r f hf with ⟨e, he, hocc⟩
      have h2 : occursIn e ("Row " ++ toString (i + 2) ++ ": " ++
          joinSep "; " (crmRowErrors r)) :=
        occursIn_append_left e _ _ (occursIn_join_of_mem "; " _ e he)
      have h3 := occursIn_append_left e "CRM Policies - " _ h2
      exact occursIn_trans f e _ hocc (occursIn_trans e _ _ h3 hlineMsg)

/-- Witness for `validation_rejects_bad_rows`: one carrier row with an
unparseable `amount` next to a clean CRM row. -/
theorem validation_rejects_bad_rows_witness :
    ∃ msg, validate_csvs
        [⟨.val "P1", .val "A1", .val "Acme", .ok 739430, .bad "abc",
          .val "active"⟩]
        [⟨.val "P1", .val "A1", .ok 739420, .ok 800⟩] = Except.error msg
      ∧ (∀ i r,
          ([⟨.val "P1", .val "A1", .val "Acme", .ok 739430, .bad "abc",
            .val "active"⟩] : List RawCarrierRow)[i]? = some r →
          carrierValueBad r = true →
          occursIn ("Row " ++ toString (i + 2) ++ ":") msg
          ∧ ∀ f ∈ carrierBadFields r, occursIn f msg)
      ∧ (∀ i r,
          ([⟨.val "P1", .val "A1", .ok 739420, .ok 800⟩] :
            List RawCRMRow)[i]? = some r →
          crmValueBad r = true →
          occursIn ("Row " ++ toString (i + 2) ++ ":") msg
          ∧ ∀ f ∈ crmBadFields r, occursIn f msg) :=
  validation_rejects_bad_rows
    [⟨.val "P1", .val "A1", .val "Acme", .ok 739430, .bad "abc",
      .val "active"⟩]
    [⟨.val "P1", .val "A1", .ok 739420, .ok 800⟩]
    (Or.inl ⟨_, List.mem_singleton.mpr rfl, by decide⟩)

/-- C10: an input table with zero data rows is rejected by validation
with a message reporting the empty CSV, and never reaches the quote
pipeline. -/
theorem empty_csv_rejected (carrier : List RawCarrierRow)
    (crm : List RawCRMRow) (h : carrier = [] ∨ crm = []) :
    ∃ msg, validate_csvs carrier crm = Except.error msg
      ∧ (carrier = [] → occursIn "Carrier remittance CSV is empty" msg)
      ∧ (crm = [] → occursIn "CRM policies CSV is empty" msg) := by
  have hANE : allErrors carrier crm ≠ [] := by
    intro h0
    rcases h with rfl | rfl
    · simp [allErrors, validate_carrier_remittance_csv] at h0
    · simp [allErrors, validate_crm_policies_csv] at h0
  refine ⟨"CSV validation failed:\n" ++ joinSep "\n" (allErrors carrier crm),
    ?_, ?_, ?_⟩
  · unfold validate_csvs
    rw [if_neg (by simpa [List.isEmpty_iff] using hANE)]
  · intro hc
    subst hc
    have hline : ("Carrier Remittance - " ++ "Carrier remittance CSV is empty")
        ∈ allErrors [] crm :=
      List.mem_append.mpr (Or.inl (List.mem_map.mpr
        ⟨"Carrier remittance CSV is empty", by
          simp [validate_carrier_remittance_csv], rfl⟩))
    exact occursIn_trans _ _ _
      (occursIn_append_left _ "Carrier Remittance - " _ (occursIn_refl _))
      (occursIn_msg_of_mem_allErrors [] crm _ hline)
  · intro hc
    subst hc
    have hline : ("CRM Policies - " ++ "CRM policies CSV is empty")
        ∈ allErrors carrier [] :=
      List.mem_append.mpr (Or.inr (List.mem_map.mpr
        ⟨"CRM policies CSV is empty", by
          simp [validate_crm_policies_csv], rfl⟩))
    exact occursIn_trans _ _ _
      (occursIn_append_left _ "CRM Policies - " _ (occursIn_refl _))
      (occursIn_msg_of_mem_allErrors carrier [] _ hline)

/-- Witness for `empty_csv_rejected` at two empty tables. -/
theorem empty_csv_rejected_witness :
    ∃ msg, validate_csvs ([] : List RawCarrierRow) ([] : List RawCRMRow)
        = Except.error msg
      ∧ (([] : List RawCarrierRow) = [] →
          occursIn "Carrier remittance CSV is empty" msg)
      ∧ (([] : List RawCRMRow) = [] →
          occursIn "CRM policies CSV is empty" msg) :=
  empty_csv_rejected [] [] (Or.inl rfl)

end Commish
